import Mathlib

/-!
Verification of `scripts/validate_grafico.py`, a validator for Archi
"grafico" repositories (one XML file per model element / relationship /
diagram).  The Python program is shallowly embedded below: XML documents
become the inductive `XmlElem`, the filesystem becomes an explicit `FS`
value (file lists plus a parse function standing for `ET.parse`), Python
dicts become association lists with last-write-wins lookup (`dget`), and
Python exceptions become `Except String`.  Each validator method is
translated to a Lean function of the same name.
-/

deriving instance DecidableEq for Except

namespace Grafico

/-- An XML element as exposed by `xml.etree.ElementTree`: a (possibly
namespace-qualified) tag, an attribute dictionary, and child elements.
Attribute keys for namespaced attributes use ElementTree's
`\x7buri\x7dlocal` convention. -/
inductive XmlElem where
  | mk (tag : String) (attrs : List (String × String)) (children : List XmlElem)

def XmlElem.tag : XmlElem → String
  | .mk t _ _ => t

def XmlElem.attrs : XmlElem → List (String × String)
  | .mk _ a _ => a

def XmlElem.children : XmlElem → List XmlElem
  | .mk _ _ c => c

/-- `elem.get(key)`: first (= unique, in XML) binding of an attribute. -/
def XmlElem.getAttr (e : XmlElem) (k : String) : Option String :=
  (e.attrs.find? (fun a => a.1 == k)).map (fun a => a.2)

mutual
/-- All proper descendants of an element in document (preorder) order:
the semantics of ElementTree `root.findall(".//")` and
`root.findall(".//*")`, both of which return every descendant. -/
def XmlElem.descendants : XmlElem → List XmlElem
  | .mk _ _ cs => descList cs

def descList : List XmlElem → List XmlElem
  | [] => []
  | c :: rest => c :: c.descendants ++ descList rest
end

/-- `root.iter()`: the element itself followed by all descendants. -/
def XmlElem.iterAll (e : XmlElem) : List XmlElem :=
  e :: e.descendants

/-- Paths are modelled as lists of path segments relative to the
repository root, e.g. `["model", "Business", "BusinessActor_x.xml"]`. -/
abbrev MPath := List String

/-- Rendering of a path for error messages (`str(path)` in Python,
rendered with "/" separators). -/
def pstr (p : MPath) : String := String.intercalate "/" p

/-- `path.name`: the final path component. -/
def baseName (p : MPath) : String := (p.getLast?).getD ""

/-- Python-dict lookup over an association list whose entries appear in
insertion order: a later binding of the same key wins, as a later
`d[k] = v` assignment overwrites an earlier one. -/
def dget {κ α : Type} [BEq κ] (l : List (κ × α)) (k : κ) : Option α :=
  match l with
  | [] => none
  | (k2, v) :: rest =>
    match dget rest k with
    | some v2 => some v2
    | none => if k2 == k then some v else none

/-- The namespace constant `ARCHIMATE_NS`. -/
def ARCHIMATE_NS : String := "http://www.archimatetool.com/archimate"

/-- The namespace constant `XSI_NS`. -/
def XSI_NS : String := "http://www.w3.org/2001/XMLSchema-instance"

/-- ElementTree's attribute key for `xsi:type`. -/
def xsiTypeAttr : String := "\x7b" ++ XSI_NS ++ "\x7dtype"

def XmlElem.xsiType (e : XmlElem) : Option String := e.getAttr xsiTypeAttr

/-- The nine fixed `TOP_FOLDERS`. -/
def TOP_FOLDERS : List String :=
  ["Strategy", "Business", "Application", "Technology", "Motivation",
   "Implementation_Migration", "Other", "Relations", "Diagrams"]

/-- `s.startswith(pre)`, computed on character lists so that proofs can
evaluate it. -/
def strStartsWith (s pre : String) : Bool := pre.toList.isPrefixOf s.toList

/-- `s.endswith(suf)`, computed on character lists. -/
def strEndsWith (s suf : String) : Bool := suf.toList.isSuffixOf s.toList

def afterBrace : List Char → List Char
  | [] => []
  | c :: rest => if c = '\x7d' then rest else afterBrace rest

/-- `localname(tag)`: strip a leading `\x7buri\x7d` namespace qualifier.
(For a tag that starts with a brace, the Python code takes everything
after the first closing brace; ElementTree tags always contain one.) -/
def localname (tag : String) : String :=
  if strStartsWith tag "\x7b" then String.mk (afterBrace tag.toList) else tag

def beforeBrace : List Char → List Char
  | [] => []
  | c :: rest => if c = '\x7d' then [] else c :: beforeBrace rest

/-- `tag.split("\x7d")[0].strip("\x7b")`: the namespace URI of a tag (or the
bare tag when it carries no namespace). -/
def nsOf (tag : String) : String :=
  String.mk ((((beforeBrace tag.toList).dropWhile (fun c => c = '\x7b')).reverse.dropWhile
      (fun c => c = '\x7b')).reverse)

/-- Truthiness of `elem.get(key)`: the attribute is present and non-empty. -/
def truthyAttr (e : XmlElem) (k : String) : Bool :=
  match e.getAttr k with
  | some v => !(v == "")
  | none => false

/-- Python `repr`-style rendering of an `Optional[str]` inside an f-string:
`None` prints as `"None"`. -/
def optStr : Option String → String
  | some s => s
  | none => "None"

/-- `s.split(":", 1)[1]` applied when `":" in s`: drop everything up to and
including the first colon; otherwise the string is unchanged. -/
def dropThroughColon : List Char → Option (List Char)
  | [] => none
  | c :: rest => if c = ':' then some rest else dropThroughColon rest

def stripPrefixColon (s : String) : String :=
  match dropThroughColon s.toList with
  | some r => String.mk r
  | none => s

/-! ### Regular expressions

The three regexes of the source (`FILENAME_RE`, `ID_RECOMMENDED` and the
inline href pattern) are modelled directly.  `re.match` with a trailing
`$` also accepts one final newline (`$` matches just before a trailing
`"\n"`), which `chopNl` accounts for. -/

def chopNl (s : List Char) : List Char :=
  if s.getLast? = some '\n' then s.dropLast else s

/-- All ways to split a character list at an occurrence of `sep`,
rightmost occurrence first — the order in which a greedy first group
makes the backtracking engine try separators. -/
def candSplits (sep : Char) : List Char → List (List Char × List Char)
  | [] => []
  | c :: rest =>
    let tailSplits := (candSplits sep rest).map (fun pr => (c :: pr.1, pr.2))
    if c = sep then tailSplits ++ [([], rest)] else tailSplits

/-- `re.match(r"^([^/]+\.xml)#(.+)$", href)`: group 1 is a non-empty
slash-free segment ending in ".xml" (taken greedily, i.e. split at the
rightmost viable "#"), group 2 a non-empty newline-free fragment. -/
def hrefSplit (href : String) : Option (String × String) :=
  let cs := chopNl href.toList
  ((candSplits '#' cs).find? (fun pr =>
      decide (5 ≤ pr.1.length) && ((".xml".toList).isSuffixOf pr.1) &&
      !(pr.1.contains '/') && !(pr.2.isEmpty) && !(pr.2.contains '\n'))).map
    (fun pr => (String.mk pr.1, String.mk pr.2))

def wordChar (c : Char) : Bool :=
  ('A' ≤ c && c ≤ 'Z') || ('a' ≤ c && c ≤ 'z') || ('0' ≤ c && c ≤ '9') || c = '_'

/-- `FILENAME_RE = re.compile(r"^([A-Za-z0-9_]+)_(.+)\.xml$")`: group 1 is
a non-empty word-character token (greedy: split at the rightmost viable
underscore), group 2 the identifier between that underscore and the
final ".xml". -/
def filenameSplit (name : String) : Option (String × String) :=
  let cs := chopNl name.toList
  ((candSplits '_' cs).find? (fun pr =>
      !(pr.1.isEmpty) && pr.1.all wordChar && decide (5 ≤ pr.2.length) &&
      ((".xml".toList).isSuffixOf pr.2) && !(pr.2.contains '\n'))).map
    (fun pr => (String.mk pr.1, String.mk (pr.2.take (pr.2.length - 4))))

def hexChar (c : Char) : Bool :=
  ('0' ≤ c && c ≤ '9') || ('A' ≤ c && c ≤ 'F') || ('a' ≤ c && c ≤ 'f')

/-- `ID_RECOMMENDED = re.compile(r"^id-[0-9A-Fa-f]{32}$")`. -/
def idRecommended (s : String) : Bool :=
  let cs := chopNl s.toList
  (cs.take 3 == ['i', 'd', '-']) && ((cs.drop 3).length == 32) && (cs.drop 3).all hexChar

/-! ### Relationship-legality rule engine (`_is_relationship_allowed`) -/

/-- One entry of the `rules` list of `types/relationships.json`.  Absent
JSON keys are `none`; `sameClass` holds the truthiness of the
`sameClass` value. -/
structure RelRule where
  relationship : Option String
  sameClass : Bool
  sourceClass : Option String
  sourceGroup : Option String
  targetClass : Option String
  targetGroup : Option String
deriving DecidableEq

/-- The parsed `types/relationships.json` document: named groups and the
ordered rule list. -/
structure RuleSet where
  groups : List (String × List String)
  rules : List RelRule
deriving DecidableEq

/-- `in_group(name, cls)`: membership of `cls` in `groups.get(name, [])`. -/
def in_group (groups : List (String × List String)) (name cls : String) : Bool :=
  ((dget groups name).getD []).contains cls

/-- `match_side(rule_key_class, rule_key_group, actual)`: exact class
match (a truthy class key equal to `actual`), or a truthy group key that
is the wildcard `"*"` or names a group containing `actual`. -/
def match_side (groups : List (String × List String))
    (ruleCls ruleGrp : Option String) (actual : String) : Bool :=
  (match ruleCls with
   | some c => !(c == "") && (c == actual)
   | none => false) ||
  (match ruleGrp with
   | some g => !(g == "") && ((g == "*") || in_group groups g actual)
   | none => false)

/-- The per-rule test of the evaluation loop: the rule's relationship
field equals the triple's type or the wildcard, the optional same-class
constraint holds, and both side matchers accept. -/
def ruleMatches (groups : List (String × List String)) (rule : RelRule)
    (rtype src tgt : String) : Bool :=
  (rule.relationship == some rtype || rule.relationship == some "*") &&
  !(rule.sameClass && !(src == tgt)) &&
  match_side groups rule.sourceClass rule.sourceGroup src &&
  match_side groups rule.targetClass rule.targetGroup tgt

/-- `_is_relationship_allowed(rtype, src, tgt)`.  `none` stands for a
falsy `self.relation_rules` (no rule document, unreadable document, or
an empty JSON object): always allowed.  Otherwise the first matching
rule allows the triple, and with no matching rule the triple is allowed
exactly when no listed rule names this relationship type. -/
def is_relationship_allowed (rules? : Option RuleSet) (rtype src tgt : String) : Bool :=
  match rules? with
  | none => true
  | some R =>
    match R.rules.find? (fun rule => ruleMatches R.groups rule rtype src tgt) with
    | some _ => true
    | none => !(R.rules.any (fun r => r.relationship == some rtype))

/-! ### Catalog and rule-document loading -/

/-- One entry of a catalog list: the values of the `"class"` and
`"defaultFolder"` JSON keys (`none` when absent or not a string). -/
structure CatEntry where
  cls : Option String
  defaultFolder : Option String
deriving DecidableEq

/-- The parsed `types/catalog.json` document. -/
structure CatalogDoc where
  elements : List CatEntry
  relationships : List CatEntry
  diagrams : List CatEntry
deriving DecidableEq

/-- Truthiness of an optional string: present and non-empty. -/
def truthyOpt : Option String → Option String
  | some s => if s == "" then none else some s
  | none => none

def catFold (start : List (String × String) × List String)
    (entries : List CatEntry) : List (String × String) × List String :=
  entries.foldl (fun acc e =>
    match truthyOpt e.cls, truthyOpt e.defaultFolder with
    | some c, some f => (acc.1 ++ [(c, f)], acc.2 ++ [c])
    | _, _ => acc) start

/-- Processing of a successfully parsed catalog document into
`(class_to_folder, elements, relationships, diagrams)`. -/
def catalogMaps (d : CatalogDoc) :
    List (String × String) × List String × List String × List String :=
  let (m1, es) := catFold ([], []) d.elements
  let (m2, rs) := catFold (m1, []) d.relationships
  let (m3, ds) := catFold (m2, []) d.diagrams
  (m3, es, rs, ds)

/-- `read_catalog(repo)`.  The input is the state of the optional
`types/catalog.json` file: absent (`none`), present but unreadable
(`some (.error e)` with `e` the JSON decoder's message), or parsed
(`some (.ok d)`).  A read failure RAISES `ValueError` — it is not
caught anywhere, so it propagates out of `Validator.__init__`. -/
def read_catalog (file? : Option (Except String CatalogDoc)) :
    Except String (List (String × String) × List String × List String × List String) :=
  match file? with
  | none => .ok ([], [], [], [])
  | some (.error e) => .error ("Failed to read types/catalog.json: " ++ e)
  | some (.ok d) => .ok (catalogMaps d)

/-- `Validator._read_relationship_rules()`.  The input is the state of
the optional `types/relationships.json` file; a parsed file whose JSON
object is falsy (empty) is `some (.ok none)`.  Returns the rule set (or
`none` for a falsy result) together with the warnings recorded. -/
def read_relationship_rules (file? : Option (Except String (Option RuleSet))) :
    Option RuleSet × List String :=
  match file? with
  | none => (none, [])
  | some (.error e) => (none, ["Failed to read relationships.json: " ++ e])
  | some (.ok r) => (r, [])

/-- The fields of `Validator` set up by `__init__` that later phases
read (besides the mutable caches, which start empty). -/
structure InitState where
  class_to_folder : List (String × String)
  relation_rules : Option RuleSet
  warnings : List String
deriving DecidableEq

/-- `Validator.__init__`: reads the catalog (letting a `ValueError`
escape, which aborts the whole program) and then the relationship
rules (which only warn on failure). -/
def validator_init (catalogFile : Option (Except String CatalogDoc))
    (rulesFile : Option (Except String (Option RuleSet))) : Except String InitState :=
  match read_catalog catalogFile with
  | .error e => .error e
  | .ok quad =>
    let rw := read_relationship_rules rulesFile
    .ok ⟨quad.1, rw.1, rw.2⟩

/-! ### The filesystem model and the validation phases -/

/-- The read-only filesystem the validator sees.  `parse` is
`parse_xml`: for each path, either the parsed root element or the
message of the `ValueError` raised (`"XML parse error in ...: ..."`).
`hasCR` models `path.read_bytes()`: `none` when reading raises, else
whether the bytes contain `b"\r"`.  `modelXmlFiles` is
`model_dir.rglob("*.xml")` in traversal order. -/
structure FS where
  dirs : List MPath
  files : List MPath
  parse : MPath → Except String XmlElem
  hasCR : MPath → Option Bool
  modelXmlFiles : List MPath

def FS.isDir (fs : FS) (p : MPath) : Bool := fs.dirs.contains p

def FS.isFile (fs : FS) (p : MPath) : Bool := fs.files.contains p

def model_dir : MPath := ["model"]

/-- `Validator.check_structure`: required skeleton paths, then the root
tags of the folder descriptors. -/
def check_structure (fs : FS) : List String :=
  if !(fs.isDir model_dir) then
    ["Missing required folder: " ++ pstr model_dir]
  else
    (if !(fs.isFile (model_dir ++ ["folder.xml"])) then
       ["Missing required file: " ++ pstr (model_dir ++ ["folder.xml"])]
     else []) ++
    (TOP_FOLDERS.flatMap (fun f =>
      if !(fs.isDir (model_dir ++ [f])) then
        ["Missing top-level folder: " ++ pstr (model_dir ++ [f])]
      else if !(fs.isFile (model_dir ++ [f, "folder.xml"])) then
        ["Missing folder.xml in: " ++ pstr (model_dir ++ [f])]
      else [])) ++
    (if fs.isFile (model_dir ++ ["folder.xml"]) then
       match fs.parse (model_dir ++ ["folder.xml"]) with
       | .ok root =>
         if !(localname root.tag == "model") || !(nsOf root.tag == ARCHIMATE_NS) then
           ["model/folder.xml root must be archimate:model (got " ++ root.tag ++ ")"]
         else []
       | .error e => [e]
     else []) ++
    (TOP_FOLDERS.flatMap (fun f =>
      if fs.isFile (model_dir ++ [f, "folder.xml"]) then
        match fs.parse (model_dir ++ [f, "folder.xml"]) with
        | .ok root =>
          if !(localname root.tag == "Folder") then
            [pstr (model_dir ++ [f, "folder.xml"]) ++
             " root must be archimate:Folder (got " ++ root.tag ++ ")"]
          else []
        | .error e => [e]
      else []))

/-- `Validator.index_files`: walk every `*.xml` under `model/` except
`folder.xml` descriptors.  The basename cache entry is made BEFORE the
parse attempt; a parse failure records an error and skips only that
file.  Returns `(basename_to_path, file_meta, errors)`, the two caches
in insertion order. -/
def index_files (parse : MPath → Except String XmlElem) :
    List MPath → List (String × MPath) × List (MPath × (String × String)) × List String
  | [] => ([], [], [])
  | p :: rest =>
    let (bpR, fmR, errsR) := index_files parse rest
    if baseName p == "folder.xml" then (bpR, fmR, errsR)
    else
      let bp := (baseName p, p) :: bpR
      match parse p with
      | .error e => (bp, fmR, e :: errsR)
      | .ok root =>
        let rid := (root.getAttr "id").getD ""
        let idErr := if rid == "" then ["Missing @id on root: " ++ pstr p] else []
        (bp, (p, (localname root.tag, rid)) :: fmR, idErr ++ errsR)

/-- `p.relative_to(model_dir).parts[0]`: the first path component below
`model/` (`none` when `p` is not below the model directory, the
`ValueError` branch). -/
def top_folder (p : MPath) : Option String :=
  if p.take 1 == model_dir then (p.drop 1).head? else none

/-- The optional default-folder placement check of
`check_files_and_ids`: runs only with a truthy (non-empty) catalog
mapping; the file's first path component under `model/` must equal the
catalog's declared folder for the filename class. -/
def placement_errors (class_to_folder : List (String × String)) (cls : String)
    (p : MPath) : List String :=
  if !(class_to_folder.isEmpty) then
    match dget class_to_folder cls, top_folder p with
    | some expected, some t =>
      if !(expected == "") && !(t == "") && !(expected == t) then
        ["Class " ++ cls ++ " expected in folder '" ++ expected ++ "', found in '" ++
         t ++ "': " ++ pstr p]
      else []
    | _, _ => []
  else []

/-- The body of `Validator.check_files_and_ids` for one indexed file
`(p, (root_local, rid))`: filename pattern, class/root-tag agreement
(skipped for the two diagram filename tokens), id agreement, optional
strict id form, optional catalog folder placement, and the CR warning.
Returns `(errors, warnings)`. -/
def check_file_ids (strict_ids : Bool) (class_to_folder : List (String × String))
    (hasCR : Option Bool) (p : MPath) (meta : String × String) :
    List String × List String :=
  let root_local := meta.1
  let rid := meta.2
  match filenameSplit (baseName p) with
  | none => (["Invalid filename pattern (expected <Class>_<id>.xml): " ++ pstr p], [])
  | some (cls, fid) =>
    let e1 := if !(cls == "ArchimateDiagramModel") && !(cls == "SketchModel") &&
                 !(root_local == cls) then
        ["Root element (" ++ root_local ++ ") does not match class (" ++ cls ++
         ") in filename: " ++ pstr p]
      else []
    let e2 := if !(rid == fid) then
        ["Root @id (" ++ rid ++ ") does not match filename id (" ++ fid ++ "): " ++ pstr p]
      else []
    let e3 := if strict_ids && !(idRecommended fid) then
        ["ID not in recommended form id-<32 hex>: " ++ fid ++ " (" ++ pstr p ++ ")"]
      else []
    let w := if hasCR == some true then
        ["CR characters found (non-UNIX newlines): " ++ pstr p]
      else []
    (e1 ++ e2 ++ e3 ++ placement_errors class_to_folder cls p, w)

/-- `Validator.check_files_and_ids` over the whole index, in index
insertion order. -/
def check_files_and_ids (strict_ids : Bool) (class_to_folder : List (String × String))
    (hasCR : MPath → Option Bool) (fm : List (MPath × (String × String))) :
    List String × List String :=
  fm.foldl (fun acc entry =>
    let (es, ws) := check_file_ids strict_ids class_to_folder (hasCR entry.1) entry.1 entry.2
    (acc.1 ++ es, acc.2 ++ ws)) ([], [])

/-- `Validator._resolve_href` combined with the body of the href loop of
`Validator.check_hrefs` for a single href value found in file `p`:
returns the errors recorded and the (possibly extended) `file_meta`
cache.  (The branch that extends the cache is unreachable when `parse`
is the same function used at indexing time, since the on-demand parse
of a file that failed to index fails identically.) -/
def process_href (bp : List (String × MPath)) (fm : List (MPath × (String × String)))
    (parse : MPath → Except String XmlElem) (p : MPath) (href : String) :
    List String × List (MPath × (String × String)) :=
  match hrefSplit href with
  | none =>
    (["Invalid href (must be Filename.xml#id, no folder segments): " ++ href ++
      " in " ++ pstr p], fm)
  | some (fname, frag) =>
    match dget bp fname with
    | none =>
      (["Invalid href (must be Filename.xml#id, no folder segments): " ++ href ++
        " in " ++ pstr p], fm)
    | some tgt =>
      match dget fm tgt with
      | some (_, trid) =>
        (if !(frag == trid) then
           ["Href id (" ++ frag ++ ") does not match target root @id (" ++ trid ++
            "): " ++ href ++ " (in " ++ pstr p ++ ")"]
         else [], fm)
      | none =>
        match parse tgt with
        | .error e =>
          (["Failed to parse target of href " ++ href ++ ": " ++ e], fm)
        | .ok troot =>
          let trid := (troot.getAttr "id").getD ""
          (if !(frag == trid) then
             ["Href id (" ++ frag ++ ") does not match target root @id (" ++ trid ++
              "): " ++ href ++ " (in " ++ pstr p ++ ")"]
           else [], fm ++ [(tgt, (localname troot.tag, trid))])

/-- `Validator.check_hrefs`: for every indexed file (re-parsed; a
failure skips the file), every element including the root is scanned
for an `href` attribute. -/
def check_hrefs (bp : List (String × MPath)) (fm : List (MPath × (String × String)))
    (parse : MPath → Except String XmlElem) :
    List String × List (MPath × (String × String)) :=
  (fm.map (fun e => e.1)).foldl (fun acc p =>
    match parse p with
    | .error _ => acc
    | .ok root =>
      root.iterAll.foldl (fun acc2 elem =>
        match elem.getAttr "href" with
        | none => acc2
        | some href =>
          let (es, fm2) := process_href bp acc2.2 parse p href
          (acc2.1 ++ es, fm2)) acc) ([], fm)

/-- The body of `Validator.check_relationships` for one file whose root
tag ends in "Relationship".  With a truthy rule set loaded, the code
reads `src_elems[0]` / `tgt_elems[0]` unconditionally, so a missing
side raises `IndexError` (modelled as `.error`). -/
def relationship_file_errors (rules? : Option RuleSet) (p : MPath)
    (root_local : String) (root : XmlElem) : Except String (List String) :=
  let src_elems := root.children.filter (fun e => localname e.tag == "source")
  let tgt_elems := root.children.filter (fun e => localname e.tag == "target")
  let e1 := if !(src_elems.length == 1) then
      ["Relationship missing single <source>: " ++ pstr p] else []
  let e2 := if !(tgt_elems.length == 1) then
      ["Relationship missing single <target>: " ++ pstr p] else []
  let sideErrs := fun (lab : String) (coll : List XmlElem) =>
    match coll.head? with
    | none => []
    | some e =>
      (if !(truthyAttr e "href") then
         ["Relationship " ++ lab ++ " missing @href: " ++ pstr p] else []) ++
      (if !(truthyAttr e xsiTypeAttr) then
         ["Relationship " ++ lab ++ " missing @xsi:type: " ++ pstr p] else [])
  let shapeErrs := e1 ++ e2 ++ sideErrs "source" src_elems ++ sideErrs "target" tgt_elems
  match rules? with
  | none => .ok shapeErrs
  | some R =>
    match src_elems.head?, tgt_elems.head? with
    | some s, some t =>
      let src_type := stripPrefixColon ((s.getAttr xsiTypeAttr).getD "")
      let tgt_type := stripPrefixColon ((t.getAttr xsiTypeAttr).getD "")
      if is_relationship_allowed (some R) root_local src_type tgt_type then .ok shapeErrs
      else .ok (shapeErrs ++
        ["Relationship " ++ root_local ++ " not allowed between " ++ src_type ++
         " and " ++ tgt_type ++ ": " ++ pstr p])
    | _, _ => .error "list index out of range"

/-- `Validator.check_relationships` over the whole index, in index
order.  The per-file re-parse is not guarded by a `try`, so a parse
failure (like the `IndexError` above) crashes the run. -/
def check_relationships (rules? : Option RuleSet)
    (parse : MPath → Except String XmlElem) :
    List (MPath × (String × String)) → Except String (List String)
  | [] => .ok []
  | entry :: rest =>
    if strEndsWith entry.2.1 "Relationship" then
      match parse entry.1 with
      | .error e => .error e
      | .ok root =>
        match relationship_file_errors rules? entry.1 entry.2.1 root with
        | .error e => .error e
        | .ok es =>
          match check_relationships rules? parse rest with
          | .error e => .error e
          | .ok esR => .ok (es ++ esR)
    else check_relationships rules? parse rest

/-- The diagram-object id set of one diagram file: ids of descendants
whose local tag is one of the five diagram-object kinds (with a truthy
id attribute). -/
def collect_ids (root : XmlElem) : List String :=
  root.descendants.filterMap (fun child =>
    match child.getAttr "id" with
    | some i =>
      if !(i == "") &&
         ((["DiagramModelArchimateObject", "DiagramModelNote", "DiagramModelImage",
            "DiagramModelGroup", "DiagramModelReference"] : List String).contains
           (localname child.tag)) then some i
      else none
    | none => none)

/-- `Validator._diagram_object_element_type`: look up the first
descendant carrying the given id and typed as a
`DiagramModelArchimateObject`, and return the namespace-stripped
`xsi:type` of its `archimateElement` child. -/
def diagram_object_element_type (root : XmlElem) (dmo_id : Option String) :
    Option String :=
  match truthyOpt dmo_id with
  | none => none
  | some i =>
    match root.descendants.find? (fun dmo =>
        dmo.getAttr "id" == some i &&
        dmo.xsiType == some "archimate:DiagramModelArchimateObject") with
    | none => none
    | some dmo =>
      match dmo.children.find? (fun c => c.tag == "archimateElement") with
      | none => none
      | some el => some (stripPrefixColon ((el.getAttr xsiTypeAttr).getD ""))

/-- The rule-based re-validation performed for one `archimateRelationship`
child of a diagram connection (empty when no truthy rule set is
loaded, or when any of the three looked-up types is falsy). -/
def conn_rule_errors (rules? : Option RuleSet) (root : XmlElem) (p : MPath)
    (conn ch : XmlElem) : List String :=
  match rules? with
  | none => []
  | some R =>
    let rtype := stripPrefixColon ((ch.getAttr xsiTypeAttr).getD "")
    let sid := conn.getAttr "source"
    let tid := conn.getAttr "target"
    match truthyOpt (some rtype), truthyOpt (diagram_object_element_type root sid),
          truthyOpt (diagram_object_element_type root tid) with
    | some rt, some st, some tt =>
      if is_relationship_allowed (some R) rt st tt then []
      else ["Diagram connection " ++ rt ++ " not allowed between " ++ st ++ " and " ++
            tt ++ " in " ++ pstr p]
    | _, _, _ => []

/-- `not sid or sid not in ids`: a connection endpoint is bad when the
attribute is absent, empty, or names no collected diagram-object id. -/
def bad_endpoint (ids : List String) : Option String → Bool
  | none => true
  | some s => (s == "") || !(ids.contains s)

/-- The checks run for one diagram connection (an element whose
`xsi:type` is `archimate:DiagramModelArchimateConnection`): both
endpoint ids must be truthy members of this diagram's own id set, each
`archimateRelationship` child must carry an href (plus the optional
rule re-validation), and at least one such child must exist. -/
def conn_errors (rules? : Option RuleSet) (ids : List String) (root : XmlElem)
    (p : MPath) (conn : XmlElem) : List String :=
  let sid := conn.getAttr "source"
  let tid := conn.getAttr "target"
  (if bad_endpoint ids sid then
     ["Diagram connection source not found among children ids: " ++ optStr sid ++
      " in " ++ pstr p] else []) ++
  (if bad_endpoint ids tid then
     ["Diagram connection target not found among children ids: " ++ optStr tid ++
      " in " ++ pstr p] else []) ++
  (conn.children.flatMap (fun ch =>
    if localname ch.tag == "archimateRelationship" then
      (if !(truthyAttr ch "href") then
         ["Diagram connection missing archimateRelationship/@href in " ++ pstr p]
       else []) ++ conn_rule_errors rules? root p conn ch
    else [])) ++
  (if conn.children.any (fun ch => localname ch.tag == "archimateRelationship") then []
   else ["Diagram connection missing <archimateRelationship> in " ++ pstr p])

/-- The checks run for one `archimate:DiagramModelArchimateObject`:
a `bounds` child and an `archimateElement` child with a truthy href. -/
def dmao_errors (p : MPath) (dmo : XmlElem) : List String :=
  (if (dmo.children.find? (fun c => c.tag == "bounds")).isNone then
     ["DiagramModelArchimateObject missing <bounds> in " ++ pstr p] else []) ++
  (match dmo.children.find? (fun c => c.tag == "archimateElement") with
   | none => ["DiagramModelArchimateObject missing archimateElement/@href in " ++ pstr p]
   | some ael =>
     if !(truthyAttr ael "href") then
       ["DiagramModelArchimateObject missing archimateElement/@href in " ++ pstr p]
     else [])

/-- The body of `Validator.check_diagrams` for one diagram file. -/
def diagram_file_errors (rules? : Option RuleSet) (p : MPath) (root : XmlElem) :
    List String :=
  let ids := collect_ids root
  (root.descendants.flatMap (fun conn =>
    if conn.xsiType == some "archimate:DiagramModelArchimateConnection" then
      conn_errors rules? ids root p conn
    else [])) ++
  (root.descendants.flatMap (fun dmo =>
    if dmo.xsiType == some "archimate:DiagramModelArchimateObject" then
      dmao_errors p dmo
    else []))

/-- `Validator.check_diagrams` over the whole index, in index order
(the unguarded re-parse again crashes the run on failure). -/
def check_diagrams (rules? : Option RuleSet)
    (parse : MPath → Except String XmlElem) :
    List (MPath × (String × String)) → Except String (List String)
  | [] => .ok []
  | entry :: rest =>
    if entry.2.1 == "ArchimateDiagramModel" || entry.2.1 == "SketchModel" then
      match parse entry.1 with
      | .error e => .error e
      | .ok root =>
        match check_diagrams rules? parse rest with
        | .error e => .error e
        | .ok esR => .ok (diagram_file_errors rules? entry.1 root ++ esR)
    else check_diagrams rules? parse rest

/-! ### The run orchestrator and the reporter -/

/-- Everything a run depends on.  `archiErrors` is the error batch the
optional external Archi smoke test records (empty when no binary is
supplied) — an external collaborator modelled at its interface. -/
structure RunInput where
  fs : FS
  catalogFile : Option (Except String CatalogDoc)
  rulesFile : Option (Except String (Option RuleSet))
  strictIds : Bool
  archiErrors : List String

/-- The observable outcome of a completed run: which phases executed,
the recorded diagnostics in order, and the exit status returned by
`Validator.run` / `_report`. -/
structure RunRes where
  phases : List String
  errors : List String
  warnings : List String
  exitCode : Nat
deriving DecidableEq

def allPhases : List String :=
  ["check_structure", "index_files", "check_files_and_ids", "check_hrefs",
   "check_relationships", "check_diagrams", "optional_archi_load"]

/-- The phases `Validator.run` executes once the structural gate has
passed: indexing, identity checks, href checks, relationship checks,
diagram checks, the optional external smoke test, then `_report`
(exit status 0 exactly when the accumulated error list is empty). -/
def main_checks (st : InitState) (inp : RunInput) : Except String RunRes :=
  let ix := index_files inp.fs.parse inp.fs.modelXmlFiles
  let idres := check_files_and_ids inp.strictIds st.class_to_folder
    inp.fs.hasCR ix.2.1
  let hres := check_hrefs ix.1 ix.2.1 inp.fs.parse
  match check_relationships st.relation_rules inp.fs.parse hres.2 with
  | .error e => .error e
  | .ok relErrs =>
    match check_diagrams st.relation_rules inp.fs.parse hres.2 with
    | .error e => .error e
    | .ok diagErrs =>
      let errs := ix.2.2 ++ idres.1 ++ hres.1 ++ relErrs ++ diagErrs ++
        inp.archiErrors
      .ok ⟨allPhases, errs, st.warnings ++ idres.2,
           if errs == [] then 0 else 1⟩

/-- The body of `Validator.run`: if the structural check recorded any
error, report immediately with exit status 1 and run nothing else;
otherwise run all later phases. -/
def run_phases (st : InitState) (inp : RunInput) : Except String RunRes :=
  if check_structure inp.fs == [] then main_checks st inp
  else .ok ⟨["check_structure"], check_structure inp.fs, st.warnings, 1⟩

/-- `main` → `Validator(...)` → `Validator.run`: construct the
validator (a catalog read failure escapes as an uncaught exception),
then run the gated phase pipeline. -/
def runV (inp : RunInput) : Except String RunRes :=
  match validator_init inp.catalogFile inp.rulesFile with
  | .error e => .error e
  | .ok st => run_phases st inp

/-! ### Concrete fixtures for the closed statements below -/

/-- A truthy, non-empty rule set (one rule for `AssociationRelationship`
between members of the group `Biz`). -/
def fixRules : RuleSet :=
  ⟨[("Biz", ["BusinessActor", "BusinessRole"])],
   [⟨some "AssociationRelationship", false, none, some "Biz", none, some "Biz"⟩]⟩

/-- A well-formed `<target>` child (href and xsi:type present). -/
def fixTarget : XmlElem :=
  .mk "target"
    [("href", "BusinessActor_b1.xml#b1"), (xsiTypeAttr, "archimate:BusinessActor")] []

/-- A relationship document with one `<target>` child and NO `<source>`
child. -/
def fixRelNoSource : XmlElem :=
  .mk "\x7bhttp://www.archimatetool.com/archimate\x7dAssociationRelationship"
    [("id", "r1")] [fixTarget]

def fixRelP : MPath := ["model", "Relations", "AssociationRelationship_r1.xml"]

/-- An `archimateRelationship` connection child carrying an href. -/
def fixRelChild : XmlElem :=
  .mk "archimateRelationship"
    [("href", "AssociationRelationship_r1.xml#r1"),
     (xsiTypeAttr, "archimate:AssociationRelationship")] []

/-- A diagram connection with TWO `archimateRelationship` children, both
carrying hrefs, and both endpoints resolvable. -/
def fixConnTwoRels : XmlElem :=
  .mk "sourceConnection"
    [(xsiTypeAttr, "archimate:DiagramModelArchimateConnection"), ("id", "c1"),
     ("source", "o1"), ("target", "o2")] [fixRelChild, fixRelChild]

def fixDiagP : MPath := ["model", "Diagrams", "ArchimateDiagramModel_d1.xml"]

/-- A diagram whose only connection has the duplicated backing
relationship above. -/
def fixDiagRoot : XmlElem :=
  .mk "ArchimateDiagramModel" [("id", "d1")]
    [.mk "DiagramModelArchimateObject" [("id", "o1")] [fixConnTwoRels],
     .mk "DiagramModelArchimateObject" [("id", "o2")] []]

/-- A diagram connection whose source id `o4` and target id `o3` are
both absent from this diagram's own object ids. -/
def fixConnDangling : XmlElem :=
  .mk "sourceConnection"
    [(xsiTypeAttr, "archimate:DiagramModelArchimateConnection"), ("id", "c2"),
     ("source", "o4"), ("target", "o3")] [fixRelChild]

def fixDiagDangling : XmlElem :=
  .mk "ArchimateDiagramModel" [("id", "d1")]
    [.mk "DiagramModelArchimateObject" [("id", "o1")] [fixConnDangling],
     .mk "DiagramModelArchimateObject" [("id", "o2")] []]

def fixDiagP2 : MPath := ["model", "Diagrams", "ArchimateDiagramModel_d2.xml"]

/-- A sibling diagram that DOES contain objects with ids `o3` and `o4`. -/
def fixDiagOther : XmlElem :=
  .mk "ArchimateDiagramModel" [("id", "d2")]
    [.mk "DiagramModelArchimateObject" [("id", "o3")] [],
     .mk "DiagramModelArchimateObject" [("id", "o4")] []]

def fixDiagFm : List (MPath × (String × String)) :=
  [(fixDiagP, ("ArchimateDiagramModel", "d1")), (fixDiagP2, ("ArchimateDiagramModel", "d2"))]

def fixDiagParse : MPath → Except String XmlElem := fun p =>
  if p == fixDiagP then .ok fixDiagDangling
  else if p == fixDiagP2 then .ok fixDiagOther
  else .error ("XML parse error in " ++ pstr p ++ ": no such file")

/-- Folder-descriptor roots for a minimal structurally clean repository. -/
def fixModelRoot : XmlElem :=
  .mk "\x7bhttp://www.archimatetool.com/archimate\x7dmodel" [("id", "m")] []

def fixFolderRoot : XmlElem :=
  .mk "\x7bhttp://www.archimatetool.com/archimate\x7dFolder" [("id", "f")] []

/-- A minimal clean repository: `model/` plus the nine top-level
folders, each with a well-formed folder descriptor, no content files. -/
def fixFsOK : FS :=
  ⟨[["model"]] ++ TOP_FOLDERS.map (fun f => ["model", f]),
   [["model", "folder.xml"]] ++ TOP_FOLDERS.map (fun f => ["model", f, "folder.xml"]),
   fun p => if p == ["model", "folder.xml"] then .ok fixModelRoot else .ok fixFolderRoot,
   fun _ => some false,
   []⟩

/-- The same repository with the `Relations` top-level folder missing. -/
def fixFsBad : FS :=
  ⟨[["model"]] ++ (TOP_FOLDERS.filter (fun f => !(f == "Relations"))).map
      (fun f => ["model", f]),
   [["model", "folder.xml"]] ++ TOP_FOLDERS.map (fun f => ["model", f, "folder.xml"]),
   fun p => if p == ["model", "folder.xml"] then .ok fixModelRoot else .ok fixFolderRoot,
   fun _ => some false,
   []⟩

def fixBadXmlP : MPath := ["model", "Business", "BusinessActor_b1.xml"]

/-- A parse function under which `fixBadXmlP` is malformed. -/
def fixBadParse : MPath → Except String XmlElem := fun p =>
  if p == fixBadXmlP then
    .error ("XML parse error in " ++ pstr p ++ ": syntax error: line 1, column 0")
  else .ok fixFolderRoot

/-! ### Helper lemmas -/

theorem str_ne_of_take (K : Nat) (s t : String) (h : s.data.take K ≠ t.data.take K) :
    s ≠ t :=
  fun he => h (congrArg (fun u : String => u.data.take K) he)

theorem mem_ite_singleton {α : Type} {c : Prop} [Decidable c] {x m : α} :
    (x ∈ if c then [m] else []) ↔ (c ∧ x = m) := by
  by_cases h : c <;> simp [h]

theorem dget_mem {κ α : Type} [BEq κ] [LawfulBEq κ] {l : List (κ × α)} {k : κ} {v : α}
    (h : dget l k = some v) : (k, v) ∈ l := by
  induction l with
  | nil => simp [dget] at h
  | cons hd tl ih =>
    obtain ⟨k2, v2⟩ := hd
    simp only [dget] at h
    cases hdg : dget tl k with
    | some w =>
      rw [hdg] at h
      injection h with h2
      subst h2
      exact List.mem_cons_of_mem _ (ih hdg)
    | none =>
      rw [hdg] at h
      by_cases hk : (k2 == k) = true
      · rw [if_pos hk] at h
        injection h with h2
        subst h2
        have hk2 : k2 = k := eq_of_beq hk
        subst hk2
        exact List.mem_cons_self _ _
      · rw [if_neg hk] at h
        cases h

theorem index_files_fm_ok (parse : MPath → Except String XmlElem) (l : List MPath) :
    ∀ q m, (q, m) ∈ (index_files parse l).2.1 → ∃ root, parse q = .ok root := by
  induction l with
  | nil => intro q m h; simp [index_files] at h
  | cons p rest ih =>
    intro q m h
    simp only [index_files] at h
    by_cases hb : (baseName p == "folder.xml") = true
    · rw [if_pos hb] at h
      exact ih q m h
    · rw [if_neg hb] at h
      cases hp : parse p with
      | error e =>
        rw [hp] at h
        exact ih q m h
      | ok root =>
        rw [hp] at h
        rcases List.mem_cons.mp h with heq | hmem
        · cases heq
          exact ⟨root, hp⟩
        · exact ih q m hmem

theorem index_files_bp_mem (parse : MPath → Except String XmlElem) (l : List MPath) :
    ∀ n q, (n, q) ∈ (index_files parse l).1 → q ∈ l ∧ n = baseName q := by
  induction l with
  | nil => intro n q h; simp [index_files] at h
  | cons p rest ih =>
    intro n q h
    simp only [index_files] at h
    by_cases hb : (baseName p == "folder.xml") = true
    · rw [if_pos hb] at h
      have := ih n q h
      exact ⟨List.mem_cons_of_mem _ this.1, this.2⟩
    · rw [if_neg hb] at h
      have hcons : (n, q) ∈ (baseName p, p) :: (index_files parse rest).1 := by
        cases hp : parse p with
        | error e => rw [hp] at h; exact h
        | ok root => rw [hp] at h; exact h
      rcases List.mem_cons.mp hcons with heq | hmem
      · cases heq
        exact ⟨List.mem_cons_self _ _, rfl⟩
      · have := ih n q hmem
        exact ⟨List.mem_cons_of_mem _ this.1, this.2⟩

theorem index_files_bp_lookup (parse : MPath → Except String XmlElem) (l : List MPath)
    (p : MPath) (hmem : p ∈ l) (hname : (baseName p == "folder.xml") = false)
    (huniq : ∀ q ∈ l, baseName q = baseName p → q = p) :
    dget (index_files parse l).1 (baseName p) = some p := by
  induction l with
  | nil => cases hmem
  | cons hd tl ih =>
    simp only [index_files]
    by_cases hp : p ∈ tl
    · have hrec := ih hp (fun q hq hbq => huniq q (List.mem_cons_of_mem _ hq) hbq)
      by_cases hb : (baseName hd == "folder.xml") = true
      · rw [if_pos hb]
        exact hrec
      · rw [if_neg hb]
        cases hph : parse hd with
        | error e =>
          simp only [dget]
          rw [hrec]
        | ok root =>
          simp only [dget]
          rw [hrec]
    · have hphd : p = hd := by
        rcases List.mem_cons.mp hmem with heq | hmem'
        · exact heq
        · exact absurd hmem' hp
      subst hphd
      by_cases hb : (baseName p == "folder.xml") = true
      · rw [hb] at hname; cases hname
      · rw [if_neg hb]
        have hnone : dget (index_files parse tl).1 (baseName p) = none := by
          cases hdg : dget (index_files parse tl).1 (baseName p) with
          | none => rfl
          | some v =>
            have hmem2 := index_files_bp_mem parse tl (baseName p) v (dget_mem hdg)
            have : v = p := huniq v (List.mem_cons_of_mem _ hmem2.1) hmem2.2.symm
            subst this
            exact absurd hmem2.1 hp
        cases hph : parse p with
        | error e =>
          simp only [dget]
          rw [hnone]
          simp
        | ok root =>
          simp only [dget]
          rw [hnone]
          simp

theorem check_diagrams_ok_mem (rules? : Option RuleSet)
    (parse : MPath → Except String XmlElem) :
    ∀ (fm : List (MPath × (String × String))) (es : List String),
      check_diagrams rules? parse fm = .ok es →
      ∀ entry ∈ fm,
        (entry.2.1 == "ArchimateDiagramModel" || entry.2.1 == "SketchModel") = true →
        ∀ root, parse entry.1 = .ok root →
          ∀ x ∈ diagram_file_errors rules? entry.1 root, x ∈ es := by
  intro fm
  induction fm with
  | nil => intro es h entry hentry; cases hentry
  | cons hd tl ih =>
    intro es h entry hentry hkind root hparse x hx
    simp only [check_diagrams] at h
    rcases List.mem_cons.mp hentry with rfl | hmem
    · rw [if_pos hkind, hparse] at h
      cases hrest : check_diagrams rules? parse tl with
      | error e => rw [hrest] at h; cases h
      | ok esR =>
        rw [hrest] at h
        cases h
        exact List.mem_append_left _ hx
    · by_cases hk2 : (hd.2.1 == "ArchimateDiagramModel" || hd.2.1 == "SketchModel") = true
      · rw [if_pos hk2] at h
        cases hph : parse hd.1 with
        | error e => rw [hph] at h; cases h
        | ok r2 =>
          rw [hph] at h
          cases hrest : check_diagrams rules? parse tl with
          | error e => rw [hrest] at h; cases h
          | ok esR =>
            rw [hrest] at h
            cases h
            exact List.mem_append_right _
              (ih esR hrest entry hmem hkind root hparse x hx)
      · rw [if_neg hk2] at h
        exact ih es h entry hmem hkind root hparse x hx

theorem conn_errors_sub_diagram (rules? : Option RuleSet) (p : MPath)
    (root conn : XmlElem) (hconn : conn ∈ root.descendants)
    (hty : (conn.xsiType == some "archimate:DiagramModelArchimateConnection") = true) :
    ∀ x ∈ conn_errors rules? (collect_ids root) root p conn,
      x ∈ diagram_file_errors rules? p root := by
  intro x hx
  unfold diagram_file_errors
  apply List.mem_append_left
  exact List.mem_flatMap.mpr ⟨conn, hconn, by rw [if_pos hty]; exact hx⟩

theorem mem_ite_nil_singleton {α : Type} {c : Prop} [Decidable c] {x m : α} :
    (x ∈ if c then [] else [m]) ↔ (¬ c ∧ x = m) := by
  by_cases h : c <;> simp [h]

/-- Two strings with distinct literal prefixes stay distinct whatever is
appended after the prefixes. -/
theorem str_append_ne (s1 s2 : String) (K : Nat) (hK1 : K ≤ s1.data.length)
    (hK2 : K ≤ s2.data.length) (hne : s1.data.take K ≠ s2.data.take K)
    (a b : String) : s1 ++ a ≠ s2 ++ b := by
  apply str_ne_of_take K
  rw [String.data_append, String.data_append,
      List.take_append_of_le_length hK1, List.take_append_of_le_length hK2]
  exact hne

/-- Every placement error starts with the literal `"Class "`. -/
theorem placement_errors_shape (ctf : List (String × String)) (cls : String)
    (p : MPath) : ∀ x ∈ placement_errors ctf cls p, ∃ ex t,
      x = "Class " ++ (cls ++ (" expected in folder '" ++ (ex ++ ("', found in '" ++
        (t ++ ("': " ++ pstr p)))))) := by
  intro x hx
  unfold placement_errors at hx
  by_cases h0 : (!ctf.isEmpty) = true
  · rw [if_pos h0] at hx
    cases hd : dget ctf cls with
    | none => rw [hd] at hx; cases hx
    | some expected =>
      rw [hd] at hx
      cases ht : top_folder p with
      | none => rw [ht] at hx; cases hx
      | some t =>
        rw [ht] at hx
        have hx2 : x ∈ (if (!(expected == "") && !(t == "") && !(expected == t)) = true
            then ["Class " ++ cls ++ " expected in folder '" ++ expected ++
                  "', found in '" ++ t ++ "': " ++ pstr p]
            else []) := hx
        by_cases hc : (!(expected == "") && !(t == "") && !(expected == t)) = true
        · rw [if_pos hc] at hx2
          rcases List.mem_singleton.mp hx2 with rfl
          exact ⟨expected, t, by simp only [String.append_assoc]⟩
        · rw [if_neg hc] at hx2; cases hx2
  · rw [if_neg h0] at hx; cases hx

theorem dangling_source_mem_conn (rules? : Option RuleSet) (ids : List String)
    (root : XmlElem) (p : MPath) (conn : XmlElem)
    (hbad : bad_endpoint ids (conn.getAttr "source") = true) :
    ("Diagram connection source not found among children ids: " ++
      optStr (conn.getAttr "source") ++ " in " ++ pstr p) ∈
      conn_errors rules? ids root p conn := by
  unfold conn_errors
  apply List.mem_append.mpr
  left
  apply List.mem_append.mpr
  left
  apply List.mem_append.mpr
  left
  rw [if_pos hbad]
  exact List.mem_singleton.mpr rfl

theorem dangling_target_mem_conn (rules? : Option RuleSet) (ids : List String)
    (root : XmlElem) (p : MPath) (conn : XmlElem)
    (hbad : bad_endpoint ids (conn.getAttr "target") = true) :
    ("Diagram connection target not found among children ids: " ++
      optStr (conn.getAttr "target") ++ " in " ++ pstr p) ∈
      conn_errors rules? ids root p conn := by
  unfold conn_errors
  apply List.mem_append.mpr
  left
  apply List.mem_append.mpr
  left
  apply List.mem_append.mpr
  right
  rw [if_pos hbad]
  exact List.mem_singleton.mpr rfl

/-- Whenever the post-gate pipeline completes, it reports all phases as
run and its exit status is 0 exactly when no error was recorded. -/
theorem main_checks_shape (st : InitState) (inp : RunInput) (r : RunRes)
    (h : main_checks st inp = .ok r) :
    r.phases = allPhases ∧ (r.exitCode = 0 ↔ r.errors = []) := by
  simp only [main_checks] at h
  split at h
  · simp at h
  · split at h
    · simp at h
    · injection h with h2
      subst h2
      refine ⟨rfl, ?_⟩
      dsimp only
      split
      · next hb => exact ⟨fun _ => eq_of_beq hb, fun _ => rfl⟩
      · next hb =>
        constructor
        · intro h10
          exact absurd h10 one_ne_zero
        · intro he
          exact absurd (beq_iff_eq.mpr he) hb

/-! ### Claim theorems -/

/-- C1 (counterexample): a present but malformed `types/catalog.json`
does NOT degrade to a warning — `read_catalog` raises `ValueError`
("Failed to read types/catalog.json: ..."), which escapes
`Validator.__init__` uncaught, terminating the run fatally before any
phase executes and before any warning is recorded. -/
theorem catalog_parse_failure_fatal_cex :
    validator_init (some (.error "Expecting value: line 1 column 1 (char 0)")) none =
      .error "Failed to read types/catalog.json: Expecting value: line 1 column 1 (char 0)" := by
  rfl

/-- C1 (amended): only the RULE document degrades gracefully: a
malformed `types/relationships.json` yields a warning naming the parse
failure with the rules treated as empty (permissive downstream), while
a malformed `types/catalog.json` is a fatal uncaught `ValueError` that
terminates the run. -/
theorem optional_document_read_failures (e : String) (d : CatalogDoc)
    (rf : Option (Except String (Option RuleSet))) :
    validator_init (some (.ok d)) (some (.error e)) =
        .ok ⟨(catalogMaps d).1, none, ["Failed to read relationships.json: " ++ e]⟩ ∧
    validator_init none (some (.error e)) =
        .ok ⟨[], none, ["Failed to read relationships.json: " ++ e]⟩ ∧
    validator_init (some (.error e)) rf =
        .error ("Failed to read types/catalog.json: " ++ e) := by
  exact ⟨rfl, rfl, rfl⟩

/-- C2: a relationship file with no `<source>` child.  Without a rule
set the checker records exactly the one missing-source error, as the
claim states; but with a truthy rule set loaded the unguarded
`src_elems[0]` read raises `IndexError`, crashing the run (the crash
propagates through `check_relationships`), contradicting the claim's
"does not crash ... including when a rule set is loaded". -/
theorem relationship_missing_source_crash :
    relationship_file_errors (some fixRules) fixRelP "AssociationRelationship"
        fixRelNoSource = .error "list index out of range" ∧
    relationship_file_errors none fixRelP "AssociationRelationship" fixRelNoSource =
      .ok ["Relationship missing single <source>: model/Relations/AssociationRelationship_r1.xml"] ∧
    check_relationships (some fixRules)
        (fun q => if q == fixRelP then .ok fixRelNoSource else .error "unused")
        [(fixRelP, ("AssociationRelationship", "r1"))] =
      .error "list index out of range" := by
  exact ⟨by decide, by decide, by decide⟩

/-- C3: rule evaluation over a loaded rule set: the triple is allowed
exactly when some listed rule matches it (relationship field equal to
the type or the wildcard, same-class constraint satisfied when
required, and both side matchers accepting) — the first such rule
decides — or when no listed rule names this relationship type at all;
with at least one rule for the type and no match, the triple is
illegal (deny by omission). -/
theorem rule_evaluation_first_match_deny_by_omission (R : RuleSet)
    (rtype src tgt : String) :
    is_relationship_allowed (some R) rtype src tgt = true ↔
      ((∃ rule ∈ R.rules, ruleMatches R.groups rule rtype src tgt = true) ∨
        (∀ r ∈ R.rules, r.relationship ≠ some rtype)) := by
  simp only [is_relationship_allowed]
  cases hf : R.rules.find? (fun rule => ruleMatches R.groups rule rtype src tgt) with
  | some r =>
    constructor
    · intro _
      refine Or.inl ⟨r, List.mem_of_find?_eq_some hf, ?_⟩
      have h2 := List.find?_some hf
      simpa using h2
    · intro _
      rfl
  | none =>
    have hnone := List.find?_eq_none.mp hf
    constructor
    · intro h
      right
      intro r hr heq
      have h2 : R.rules.any (fun r => r.relationship == some rtype) = false := by
        simpa using h
      have h3 := (List.any_eq_false.mp h2) r hr
      exact h3 (by simpa using heq)
    · intro h
      rcases h with ⟨rule, hmem, hmatch⟩ | hall
      · exact absurd hmatch (hnone rule hmem)
      · have h2 : R.rules.any (fun r => r.relationship == some rtype) = false := by
          apply List.any_eq_false.mpr
          intro r hr hbeq
          exact hall r hr (by simpa using hbeq)
        simp [h2]

/-- C3 witness: the characterization instantiated at the concrete
fixture rule set. -/
theorem rule_evaluation_first_match_deny_by_omission_witness :
    is_relationship_allowed (some fixRules) "AssociationRelationship" "BusinessActor"
        "BusinessRole" = true ↔
      ((∃ rule ∈ fixRules.rules, ruleMatches fixRules.groups rule
          "AssociationRelationship" "BusinessActor" "BusinessRole" = true) ∨
        (∀ r ∈ fixRules.rules, r.relationship ≠ some "AssociationRelationship")) :=
  rule_evaluation_first_match_deny_by_omission fixRules "AssociationRelationship"
    "BusinessActor" "BusinessRole"

/-- C4: for a single href value found in file `p`: a value not matching
the `Filename.xml#fragment` pattern is recorded as (exactly one)
malformed-reference error; a syntactically valid value whose filename
is not in the basename index gets the same error; and for a value
resolving to an indexed target, an error is recorded iff the fragment
differs from the target's root identifier (exact string equality). -/
theorem href_checking_cases (bp : List (String × MPath))
    (fm : List (MPath × (String × String))) (parse : MPath → Except String XmlElem)
    (p : MPath) (href : String) :
    (hrefSplit href = none →
      (process_href bp fm parse p href).1 =
        ["Invalid href (must be Filename.xml#id, no folder segments): " ++ href ++
         " in " ++ pstr p]) ∧
    (∀ fname frag, hrefSplit href = some (fname, frag) → dget bp fname = none →
      (process_href bp fm parse p href).1 =
        ["Invalid href (must be Filename.xml#id, no folder segments): " ++ href ++
         " in " ++ pstr p]) ∧
    (∀ fname frag tgt tag trid, hrefSplit href = some (fname, frag) →
      dget bp fname = some tgt → dget fm tgt = some (tag, trid) →
      (((process_href bp fm parse p href).1 = []) ↔ frag = trid) ∧
      (¬ frag = trid → (process_href bp fm parse p href).1 =
        ["Href id (" ++ frag ++ ") does not match target root @id (" ++ trid ++
         "): " ++ href ++ " (in " ++ pstr p ++ ")"])) := by
  refine ⟨?_, ?_, ?_⟩
  · intro h
    simp only [process_href, h]
  · intro fname frag h1 h2
    simp only [process_href, h1, h2]
  · intro fname frag tgt tag trid h1 h2 h3
    simp only [process_href, h1, h2, h3]
    constructor
    · by_cases he : frag = trid
      · simp [he]
      · have hb : (frag == trid) = false := by
          cases hf2 : (frag == trid) with
          | true => exact absurd (eq_of_beq hf2) he
          | false => rfl
        simp [hb, he]
    · intro hne
      have hb : (frag == trid) = false := by
        cases hf2 : (frag == trid) with
        | true => exact absurd (eq_of_beq hf2) hne
        | false => rfl
      simp [hb]

/-- C4 witness: a syntactically valid reference resolving to an indexed
target with a mismatched fragment records exactly the mismatch error. -/
theorem href_checking_cases_witness :
    (process_href [("BusinessActor_b1.xml", ["model", "Business", "BusinessActor_b1.xml"])]
        [(["model", "Business", "BusinessActor_b1.xml"], ("BusinessActor", "b1"))]
        (fun _ => .error "unused") ["model", "Relations", "AssociationRelationship_r1.xml"]
        "BusinessActor_b1.xml#WRONG").1 =
      ["Href id (WRONG) does not match target root @id (b1): BusinessActor_b1.xml#WRONG (in model/Relations/AssociationRelationship_r1.xml)"] :=
  ((href_checking_cases _ _ _ _ _).2.2 "BusinessActor_b1.xml" "WRONG"
      ["model", "Business", "BusinessActor_b1.xml"] "BusinessActor" "b1"
      (by decide) (by decide) (by decide)).2 (by decide)

/-- C5: the structural check is a hard gate: when it records any error
the run reports immediately with exit status 1 and those errors alone,
and no later phase runs; when it records none, every later phase runs
(whenever the run completes at all). -/
theorem structural_gate (inp : RunInput) (r : RunRes) (h : runV inp = .ok r) :
    (check_structure inp.fs ≠ [] →
      r.phases = ["check_structure"] ∧ r.exitCode = 1 ∧
      r.errors = check_structure inp.fs) ∧
    (check_structure inp.fs = [] → r.phases = allPhases) := by
  unfold runV at h
  cases hi : validator_init inp.catalogFile inp.rulesFile with
  | error e =>
    rw [hi] at h
    replace h : (Except.error e : Except String RunRes) = .ok r := h
    simp at h
  | ok st =>
    rw [hi] at h
    replace h : run_phases st inp = .ok r := h
    unfold run_phases at h
    by_cases hs : check_structure inp.fs = []
    · rw [if_pos (beq_iff_eq.mpr hs)] at h
      exact ⟨fun hne => absurd hs hne, fun _ => (main_checks_shape st inp r h).1⟩
    · rw [if_neg (fun hc => hs (eq_of_beq hc))] at h
      injection h with h2
      subst h2
      exact ⟨fun _ => ⟨rfl, rfl, rfl⟩, fun hc => absurd hc hs⟩

/-- C5 witness: on a repository missing its `Relations` folder the run
stops after the structural phase with exit status 1 and only the
structural error. -/
theorem structural_gate_witness :
    (⟨["check_structure"], ["Missing top-level folder: model/Relations"], [], 1⟩ :
        RunRes).phases = ["check_structure"] ∧
    (⟨["check_structure"], ["Missing top-level folder: model/Relations"], [], 1⟩ :
        RunRes).exitCode = 1 ∧
    (⟨["check_structure"], ["Missing top-level folder: model/Relations"], [], 1⟩ :
        RunRes).errors = check_structure fixFsBad :=
  (structural_gate ⟨fixFsBad, none, none, false, []⟩ _ (by decide)).1 (by decide)

/-- C6 (counterexample): a file named `SketchModel_x.xml` whose root
local name is `BusinessActor`: the filename token differs from the
root tag and the root is NOT one of the two diagram root kinds, yet
the check records no error at all — the exemption is keyed on the
filename token alone, not on the root tag being a diagram kind. -/
theorem token_exemption_by_filename_cex :
    (check_file_ids false [] (some false) ["model", "Diagrams", "SketchModel_x.xml"]
        ("BusinessActor", "x")).1 = [] ∧
    filenameSplit "SketchModel_x.xml" = some ("SketchModel", "x") ∧
    ¬ ("BusinessActor" = "SketchModel") ∧
    ¬ ("BusinessActor" ∈ (["ArchimateDiagramModel", "SketchModel"] : List String)) :=
  ⟨by decide, by decide, by decide, by decide⟩

/-- C6 (amended): for an indexed file, a filename that does not match
`<token>_<id>.xml` yields exactly the pattern error; otherwise the
token/root mismatch error is recorded iff the token is neither of the
two fixed diagram tokens AND differs from the root local name (under
either diagram token, any root tag is permitted), and the identifier
mismatch error is recorded iff the root identifier differs from the
filename identifier (case-sensitive string equality). -/
theorem filename_identity_checks (strict : Bool) (ctf : List (String × String))
    (cr : Option Bool) (p : MPath) (rl rid : String) :
    (filenameSplit (baseName p) = none →
      (check_file_ids strict ctf cr p (rl, rid)).1 =
        ["Invalid filename pattern (expected <Class>_<id>.xml): " ++ pstr p]) ∧
    (∀ cls fid, filenameSplit (baseName p) = some (cls, fid) →
      ((("Root element (" ++ rl ++ ") does not match class (" ++ cls ++
          ") in filename: " ++ pstr p) ∈ (check_file_ids strict ctf cr p (rl, rid)).1 ↔
        (¬ cls = "ArchimateDiagramModel" ∧ ¬ cls = "SketchModel" ∧ ¬ rl = cls)) ∧
       (("Root @id (" ++ rid ++ ") does not match filename id (" ++ fid ++ "): " ++
          pstr p) ∈ (check_file_ids strict ctf cr p (rl, rid)).1 ↔ ¬ rid = fid))) := by
  constructor
  · intro h
    simp only [check_file_ids, h]
  · intro cls fid hsplit
    have key : (check_file_ids strict ctf cr p (rl, rid)).1 =
        (if (!(cls == "ArchimateDiagramModel") && !(cls == "SketchModel") &&
             !(rl == cls)) = true then
           ["Root element (" ++ rl ++ ") does not match class (" ++ cls ++
            ") in filename: " ++ pstr p] else []) ++
        (if (!(rid == fid)) = true then
           ["Root @id (" ++ rid ++ ") does not match filename id (" ++ fid ++ "): " ++
            pstr p] else []) ++
        (if (strict && !(idRecommended fid)) = true then
           ["ID not in recommended form id-<32 hex>: " ++ fid ++ " (" ++ pstr p ++ ")"]
         else []) ++
        placement_errors ctf cls p := by
      simp only [check_file_ids, hsplit]
    rw [key]
    have ne12 : ("Root element (" ++ rl ++ ") does not match class (" ++ cls ++
        ") in filename: " ++ pstr p) ≠ ("Root @id (" ++ rid ++
        ") does not match filename id (" ++ fid ++ "): " ++ pstr p) := by
      simp only [String.append_assoc]
      exact str_append_ne _ _ 6 (by decide) (by decide) (by decide) _ _
    have ne13 : ("Root element (" ++ rl ++ ") does not match class (" ++ cls ++
        ") in filename: " ++ pstr p) ≠ ("ID not in recommended form id-<32 hex>: " ++
        fid ++ " (" ++ pstr p ++ ")") := by
      simp only [String.append_assoc]
      exact str_append_ne _ _ 2 (by decide) (by decide) (by decide) _ _
    have ne23 : ("Root @id (" ++ rid ++ ") does not match filename id (" ++ fid ++
        "): " ++ pstr p) ≠ ("ID not in recommended form id-<32 hex>: " ++ fid ++
        " (" ++ pstr p ++ ")") := by
      simp only [String.append_assoc]
      exact str_append_ne _ _ 2 (by decide) (by decide) (by decide) _ _
    constructor
    · constructor
      · intro hmem
        rcases List.mem_append.mp hmem with hmem2 | hp4
        · rcases List.mem_append.mp hmem2 with hmem3 | hp3
          · rcases List.mem_append.mp hmem3 with hp1 | hp2
            · have hc := (mem_ite_singleton.mp hp1).1
              simp only [Bool.and_eq_true, Bool.not_eq_true', beq_eq_false_iff_ne] at hc
              exact ⟨hc.1.1, hc.1.2, hc.2⟩
            · exact absurd (mem_ite_singleton.mp hp2).2 ne12
          · exact absurd (mem_ite_singleton.mp hp3).2 ne13
        · obtain ⟨ex, t, heq⟩ := placement_errors_shape ctf cls p _ hp4
          have hne : ("Root element (" ++ rl ++ ") does not match class (" ++ cls ++
              ") in filename: " ++ pstr p) ≠ ("Class " ++ (cls ++
              (" expected in folder '" ++ (ex ++ ("', found in '" ++ (t ++
              ("': " ++ pstr p))))))) := by
            simp only [String.append_assoc]
            exact str_append_ne _ _ 5 (by decide) (by decide) (by decide) _ _
          exact absurd heq hne
      · intro hcond
        apply List.mem_append.mpr
        left
        apply List.mem_append.mpr
        left
        apply List.mem_append.mpr
        left
        apply mem_ite_singleton.mpr
        refine ⟨?_, rfl⟩
        simp only [Bool.and_eq_true, Bool.not_eq_true', beq_eq_false_iff_ne]
        exact ⟨⟨hcond.1, hcond.2.1⟩, hcond.2.2⟩
    · constructor
      · intro hmem
        rcases List.mem_append.mp hmem with hmem2 | hp4
        · rcases List.mem_append.mp hmem2 with hmem3 | hp3
          · rcases List.mem_append.mp hmem3 with hp1 | hp2
            · exact absurd (mem_ite_singleton.mp hp1).2 ne12.symm
            · have hc := (mem_ite_singleton.mp hp2).1
              simp only [Bool.not_eq_true', beq_eq_false_iff_ne] at hc
              exact hc
          · exact absurd (mem_ite_singleton.mp hp3).2 ne23
        · obtain ⟨ex, t, heq⟩ := placement_errors_shape ctf cls p _ hp4
          have hne : ("Root @id (" ++ rid ++ ") does not match filename id (" ++
              fid ++ "): " ++ pstr p) ≠ ("Class " ++ (cls ++
              (" expected in folder '" ++ (ex ++ ("', found in '" ++ (t ++
              ("': " ++ pstr p))))))) := by
            simp only [String.append_assoc]
            exact str_append_ne _ _ 5 (by decide) (by decide) (by decide) _ _
          exact absurd heq hne
      · intro hcond
        apply List.mem_append.mpr
        left
        apply List.mem_append.mpr
        left
        apply List.mem_append.mpr
        right
        apply mem_ite_singleton.mpr
        refine ⟨?_, rfl⟩
        simp only [Bool.not_eq_true', beq_eq_false_iff_ne]
        exact hcond

/-- C6 witness: a file whose root id `b2` differs from its filename id
`b1` records the id-mismatch error (here: iff `b2 ≠ b1`). -/
theorem filename_identity_checks_witness :
    (("Root @id (b2) does not match filename id (b1): model/Business/BusinessActor_b1.xml") ∈
      (check_file_ids false [] (some false) ["model", "Business", "BusinessActor_b1.xml"]
        ("BusinessActor", "b2")).1) ↔ ¬ "b2" = "b1" :=
  ((filename_identity_checks false [] (some false)
      ["model", "Business", "BusinessActor_b1.xml"] "BusinessActor" "b2").2
    "BusinessActor" "b1" (by decide)).2

/-- C7: diagram connection endpoint validation is local to the
connection's own diagram file, for BOTH endpoints: a connection whose
source (resp. target) id is not in the id set collected from ITS OWN
file's diagram-object descendants is reported with the corresponding
dangling-source (resp. dangling-target) error, even when another
diagram's own id set contains that id. -/
theorem diagram_endpoint_locality (rules? : Option RuleSet)
    (parse : MPath → Except String XmlElem) (fm : List (MPath × (String × String)))
    (es : List String) (entry : MPath × (String × String))
    (root conn otherRoot : XmlElem)
    (hok : check_diagrams rules? parse fm = .ok es) (hentry : entry ∈ fm)
    (hkind : (entry.2.1 == "ArchimateDiagramModel" || entry.2.1 == "SketchModel") = true)
    (hparse : parse entry.1 = .ok root)
    (hconn : conn ∈ root.descendants)
    (hty : (conn.xsiType == some "archimate:DiagramModelArchimateConnection") = true) :
    (∀ sid, conn.getAttr "source" = some sid → sid ∉ collect_ids root →
      sid ∈ collect_ids otherRoot →
      ("Diagram connection source not found among children ids: " ++ sid ++ " in " ++
        pstr entry.1) ∈ es) ∧
    (∀ tid, conn.getAttr "target" = some tid → tid ∉ collect_ids root →
      tid ∈ collect_ids otherRoot →
      ("Diagram connection target not found among children ids: " ++ tid ++ " in " ++
        pstr entry.1) ∈ es) := by
  constructor
  · intro sid hsid hdangle helsewhere
    have hbad : bad_endpoint (collect_ids root) (conn.getAttr "source") = true := by
      rw [hsid]
      simp only [bad_endpoint]
      cases hcont : (collect_ids root).contains sid with
      | true => exact absurd (List.mem_of_elem_eq_true hcont) hdangle
      | false => simp
    have h1 := dangling_source_mem_conn rules? (collect_ids root) root entry.1 conn hbad
    have h2 := conn_errors_sub_diagram rules? entry.1 root conn hconn hty _ h1
    have h3 := check_diagrams_ok_mem rules? parse fm es hok entry hentry hkind root
      hparse _ h2
    rw [hsid] at h3
    exact h3
  · intro tid htid hdangle helsewhere
    have hbad : bad_endpoint (collect_ids root) (conn.getAttr "target") = true := by
      rw [htid]
      simp only [bad_endpoint]
      cases hcont : (collect_ids root).contains tid with
      | true => exact absurd (List.mem_of_elem_eq_true hcont) hdangle
      | false => simp
    have h1 := dangling_target_mem_conn rules? (collect_ids root) root entry.1 conn hbad
    have h2 := conn_errors_sub_diagram rules? entry.1 root conn hconn hty _ h1
    have h3 := check_diagrams_ok_mem rules? parse fm es hok entry hentry hkind root
      hparse _ h2
    rw [htid] at h3
    exact h3

/-- C7 witness: the dangling-source error for `o4` and the
dangling-target error for `o3` (both ids present only in the sibling
diagram `d2`) are recorded for diagram `d1`. -/
theorem diagram_endpoint_locality_witness :
    ("Diagram connection source not found among children ids: o4 in model/Diagrams/ArchimateDiagramModel_d1.xml") ∈
      ["Diagram connection source not found among children ids: o4 in model/Diagrams/ArchimateDiagramModel_d1.xml",
       "Diagram connection target not found among children ids: o3 in model/Diagrams/ArchimateDiagramModel_d1.xml"] ∧
    ("Diagram connection target not found among children ids: o3 in model/Diagrams/ArchimateDiagramModel_d1.xml") ∈
      ["Diagram connection source not found among children ids: o4 in model/Diagrams/ArchimateDiagramModel_d1.xml",
       "Diagram connection target not found among children ids: o3 in model/Diagrams/ArchimateDiagramModel_d1.xml"] := by
  have hconn : fixConnDangling ∈ XmlElem.descendants fixDiagDangling := by
    have h : XmlElem.descendants fixDiagDangling =
        [XmlElem.mk "DiagramModelArchimateObject" [("id", "o1")] [fixConnDangling],
         fixConnDangling, fixRelChild,
         XmlElem.mk "DiagramModelArchimateObject" [("id", "o2")] []] := rfl
    rw [h]
    exact List.mem_cons_of_mem _ (List.mem_cons_self _ _)
  have h := diagram_endpoint_locality none fixDiagParse fixDiagFm _
    (fixDiagP, ("ArchimateDiagramModel", "d1")) fixDiagDangling fixConnDangling
    fixDiagOther (by rfl) (by decide) (by decide) (by rfl) hconn (by decide)
  exact ⟨h.1 "o4" (by decide) (by decide) (by decide),
         h.2 "o3" (by decide) (by decide) (by decide)⟩

/-- C8 (counterexample): a diagram connection carrying TWO
`archimateRelationship` children, each with an href, passes with no
error at all — the "exactly one" requirement is not enforced against
duplicates. -/
theorem duplicate_backing_relationship_unreported_cex :
    (fixConnTwoRels.children.filter
        (fun ch => localname ch.tag == "archimateRelationship")).length = 2 ∧
    diagram_file_errors none fixDiagP fixDiagRoot = [] :=
  ⟨by decide, by decide⟩

/-- C8 (amended): a connection with no `archimateRelationship` child is
recorded as an error, and a missing href on such a child is recorded
as an error (one per hrefless child scan); but a connection with more
than one such child is NOT reported — only at-least-one-with-href is
enforced.  (Stated for runs without a rule set; a loaded rule set only
adds legality errors.) -/
theorem connection_backing_relationship_checks (ids : List String) (root : XmlElem)
    (p : MPath) (conn : XmlElem) :
    ((("Diagram connection missing <archimateRelationship> in " ++ pstr p) ∈
        conn_errors none ids root p conn) ↔
      (∀ ch ∈ conn.children, ¬ localname ch.tag = "archimateRelationship")) ∧
    ((("Diagram connection missing archimateRelationship/@href in " ++ pstr p) ∈
        conn_errors none ids root p conn) ↔
      (∃ ch ∈ conn.children, localname ch.tag = "archimateRelationship" ∧
        truthyAttr ch "href" = false)) := by
  have key : conn_errors none ids root p conn =
      (if bad_endpoint ids (conn.getAttr "source") = true then
         ["Diagram connection source not found among children ids: " ++
          optStr (conn.getAttr "source") ++ " in " ++ pstr p] else []) ++
      (if bad_endpoint ids (conn.getAttr "target") = true then
         ["Diagram connection target not found among children ids: " ++
          optStr (conn.getAttr "target") ++ " in " ++ pstr p] else []) ++
      (conn.children.flatMap (fun ch =>
        if (localname ch.tag == "archimateRelationship") = true then
          (if (!(truthyAttr ch "href")) = true then
             ["Diagram connection missing archimateRelationship/@href in " ++ pstr p]
           else []) ++ conn_rule_errors none root p conn ch
        else [])) ++
      (if conn.children.any (fun ch => localname ch.tag == "archimateRelationship") = true
       then []
       else ["Diagram connection missing <archimateRelationship> in " ++ pstr p]) := rfl
  rw [key]
  have neSM : ("Diagram connection source not found among children ids: " ++
      optStr (conn.getAttr "source") ++ " in " ++ pstr p) ≠
      ("Diagram connection missing <archimateRelationship> in " ++ pstr p) := by
    simp only [String.append_assoc]
    exact str_append_ne _ _ 20 (by decide) (by decide) (by decide) _ _
  have neTM : ("Diagram connection target not found among children ids: " ++
      optStr (conn.getAttr "target") ++ " in " ++ pstr p) ≠
      ("Diagram connection missing <archimateRelationship> in " ++ pstr p) := by
    simp only [String.append_assoc]
    exact str_append_ne _ _ 20 (by decide) (by decide) (by decide) _ _
  have neSH : ("Diagram connection source not found among children ids: " ++
      optStr (conn.getAttr "source") ++ " in " ++ pstr p) ≠
      ("Diagram connection missing archimateRelationship/@href in " ++ pstr p) := by
    simp only [String.append_assoc]
    exact str_append_ne _ _ 20 (by decide) (by decide) (by decide) _ _
  have neTH : ("Diagram connection target not found among children ids: " ++
      optStr (conn.getAttr "target") ++ " in " ++ pstr p) ≠
      ("Diagram connection missing archimateRelationship/@href in " ++ pstr p) := by
    simp only [String.append_assoc]
    exact str_append_ne _ _ 20 (by decide) (by decide) (by decide) _ _
  have neHM : ("Diagram connection missing archimateRelationship/@href in " ++ pstr p) ≠
      ("Diagram connection missing <archimateRelationship> in " ++ pstr p) :=
    str_append_ne _ _ 28 (by decide) (by decide) (by decide) _ _
  constructor
  · constructor
    · intro hmem
      rcases List.mem_append.mp hmem with hmem2 | hpD
      · rcases List.mem_append.mp hmem2 with hmem3 | hpC
        · rcases List.mem_append.mp hmem3 with hpA | hpB
          · exact absurd (mem_ite_singleton.mp hpA).2.symm neSM
          · exact absurd (mem_ite_singleton.mp hpB).2.symm neTM
        · obtain ⟨ch, hch, hx⟩ := List.mem_flatMap.mp hpC
          by_cases hloc : (localname ch.tag == "archimateRelationship") = true
          · rw [if_pos hloc] at hx
            simp only [conn_rule_errors, List.append_nil] at hx
            exact absurd (mem_ite_singleton.mp hx).2.symm neHM
          · rw [if_neg hloc] at hx
            cases hx
      · have hnot := (mem_ite_nil_singleton.mp hpD).1
        intro ch hch hloc
        exact hnot (List.any_eq_true.mpr ⟨ch, hch, beq_iff_eq.mpr hloc⟩)
    · intro hall
      apply List.mem_append.mpr
      right
      apply mem_ite_nil_singleton.mpr
      refine ⟨?_, rfl⟩
      intro hany
      obtain ⟨ch, hch, hbeq⟩ := List.any_eq_true.mp hany
      exact hall ch hch (eq_of_beq hbeq)
  · constructor
    · intro hmem
      rcases List.mem_append.mp hmem with hmem2 | hpD
      · rcases List.mem_append.mp hmem2 with hmem3 | hpC
        · rcases List.mem_append.mp hmem3 with hpA | hpB
          · exact absurd (mem_ite_singleton.mp hpA).2.symm neSH
          · exact absurd (mem_ite_singleton.mp hpB).2.symm neTH
        · obtain ⟨ch, hch, hx⟩ := List.mem_flatMap.mp hpC
          by_cases hloc : (localname ch.tag == "archimateRelationship") = true
          · rw [if_pos hloc] at hx
            simp only [conn_rule_errors, List.append_nil] at hx
            have hc := (mem_ite_singleton.mp hx).1
            simp only [Bool.not_eq_true'] at hc
            exact ⟨ch, hch, eq_of_beq hloc, hc⟩
          · rw [if_neg hloc] at hx
            cases hx
      · exact absurd (mem_ite_nil_singleton.mp hpD).2 neHM
    · intro hcond
      obtain ⟨ch, hch, hloc, hhr⟩ := hcond
      apply List.mem_append.mpr
      left
      apply List.mem_append.mpr
      right
      apply List.mem_flatMap.mpr
      refine ⟨ch, hch, ?_⟩
      rw [if_pos (beq_iff_eq.mpr hloc)]
      apply List.mem_append.mpr
      left
      apply mem_ite_singleton.mpr
      exact ⟨by rw [hhr]; rfl, rfl⟩

/-- C8 witness: the amended characterization instantiated at the
concrete connection with two backing-relationship children. -/
theorem connection_backing_relationship_checks_witness :
    ((("Diagram connection missing <archimateRelationship> in " ++ pstr fixDiagP) ∈
        conn_errors none ["o1", "o2"] fixDiagRoot fixDiagP fixConnTwoRels) ↔
      (∀ ch ∈ fixConnTwoRels.children, ¬ localname ch.tag = "archimateRelationship")) ∧
    ((("Diagram connection missing archimateRelationship/@href in " ++ pstr fixDiagP) ∈
        conn_errors none ["o1", "o2"] fixDiagRoot fixDiagP fixConnTwoRels) ↔
      (∃ ch ∈ fixConnTwoRels.children, localname ch.tag = "archimateRelationship" ∧
        truthyAttr ch "href" = false)) :=
  connection_backing_relationship_checks ["o1", "o2"] fixDiagRoot fixDiagP fixConnTwoRels

/-- C9: for every completed run, the exit status is 0 iff no error was
recorded by any phase; the exit status is computed from the error list
alone, so warnings never fail a run. -/
theorem exit_status_iff_no_errors (inp : RunInput) (r : RunRes)
    (h : runV inp = .ok r) : r.exitCode = 0 ↔ r.errors = [] := by
  unfold runV at h
  cases hi : validator_init inp.catalogFile inp.rulesFile with
  | error e =>
    rw [hi] at h
    replace h : (Except.error e : Except String RunRes) = .ok r := h
    simp at h
  | ok st =>
    rw [hi] at h
    replace h : run_phases st inp = .ok r := h
    unfold run_phases at h
    by_cases hs : check_structure inp.fs = []
    · rw [if_pos (beq_iff_eq.mpr hs)] at h
      exact (main_checks_shape st inp r h).2
    · rw [if_neg (fun hc => hs (eq_of_beq hc))] at h
      injection h with h2
      subst h2
      dsimp only
      exact ⟨fun h10 => absurd h10 one_ne_zero, fun he => absurd he hs⟩

/-- C9 witness: a clean repository with a malformed rule document
completes with one warning, zero errors, and exit status 0. -/
theorem exit_status_iff_no_errors_witness :
    ((⟨allPhases, [], ["Failed to read relationships.json: bad"], 0⟩ : RunRes).exitCode = 0 ↔
      (⟨allPhases, [], ["Failed to read relationships.json: bad"], 0⟩ : RunRes).errors = []) :=
  exit_status_iff_no_errors ⟨fixFsOK, none, some (.error "bad"), false, []⟩ _ (by decide)

/-- C10: a file whose XML fails to parse during indexing is still
entered into the basename index (the entry is made before the parse
attempt) while being absent from the path-to-metadata index, so a
syntactically valid reference naming it takes the on-demand re-parse
fallback and records a failed-to-parse-target error — not the
not-in-index error. -/
theorem unparsed_file_fallback (parse : MPath → Except String XmlElem)
    (l : List MPath) (p : MPath) (m : String)
    (hmem : p ∈ l) (hname : (baseName p == "folder.xml") = false)
    (herr : parse p = .error m)
    (huniq : ∀ q ∈ l, baseName q = baseName p → q = p) :
    dget (index_files parse l).1 (baseName p) = some p ∧
    dget (index_files parse l).2.1 p = none ∧
    (∀ (pf : MPath) (href frag : String), hrefSplit href = some (baseName p, frag) →
      (process_href (index_files parse l).1 (index_files parse l).2.1 parse pf href).1 =
        ["Failed to parse target of href " ++ href ++ ": " ++ m]) := by
  have hname2 : (baseName p == "folder.xml") = true → False := fun hc => by
    rw [hname] at hc; cases hc
  have h1 : dget (index_files parse l).1 (baseName p) = some p :=
    index_files_bp_lookup parse l p hmem hname huniq
  have h2 : dget (index_files parse l).2.1 p = none := by
    cases hdg : dget (index_files parse l).2.1 p with
    | none => rfl
    | some mm =>
      obtain ⟨root, hroot⟩ := index_files_fm_ok parse l p mm (dget_mem hdg)
      rw [herr] at hroot
      cases hroot
  refine ⟨h1, h2, ?_⟩
  intro pf href frag hsplit
  simp only [process_href, hsplit, h1, h2, herr]

/-- C10 witness: one malformed file under `model/Business` is present
in the basename index, absent from the metadata index, and a reference
to it records the failed-to-parse-target error. -/
theorem unparsed_file_fallback_witness :
    dget (index_files fixBadParse [fixBadXmlP]).1 (baseName fixBadXmlP) = some fixBadXmlP ∧
    dget (index_files fixBadParse [fixBadXmlP]).2.1 fixBadXmlP = none ∧
    (process_href (index_files fixBadParse [fixBadXmlP]).1
        (index_files fixBadParse [fixBadXmlP]).2.1 fixBadParse fixRelP
        "BusinessActor_b1.xml#b1").1 =
      ["Failed to parse target of href BusinessActor_b1.xml#b1: XML parse error in model/Business/BusinessActor_b1.xml: syntax error: line 1, column 0"] := by
  have h := unparsed_file_fallback fixBadParse [fixBadXmlP] fixBadXmlP
    "XML parse error in model/Business/BusinessActor_b1.xml: syntax error: line 1, column 0"
    (List.mem_singleton.mpr rfl) (by decide) (by rfl)
    (fun q hq _ => List.mem_singleton.mp hq)
  exact ⟨h.1, h.2.1, by
    have h3 := h.2.2 fixRelP "BusinessActor_b1.xml#b1" "b1" (by decide)
    simpa using h3⟩

end Grafico
